import Mathlib

/-!
# Verification of the price-tracker upsert / bulk-import core

Shallow embedding of the price-mapping upsert engine, the bulk-import
reconciler, the unit-value parser and the SKU VAT middleware from
`src/server/index.js`, together with proofs of the spec's claims about them.

Conventions of the embedding:
* JavaScript numbers are modelled as exact rationals (ℚ); monetary values in
  the repository are plain JS numbers and the claims are about exact
  arithmetic relationships, not floating-point rounding.
* A possibly-`undefined` field of a request body / spreadsheet row is an
  `Option`.  JavaScript truthiness of a number is `≠ 0`; of an optional
  value, "present and truthy".
* Mongo documents are records in a list; `findById` / `findOne` are
  `List.find?`; a `save` of an existing document rewrites the document with
  the same `_id` in place.
-/

/-- JS truthiness of a possibly-undefined number (`undefined`, `0` are falsy). -/
def jsTruthyNum (o : Option ℚ) : Bool :=
  match o with
  | some x => x != 0
  | none => false

/-- `x || null` for an optional number: kept only when truthy, else `null`. -/
def jsOrNull (o : Option ℚ) : Option ℚ :=
  if jsTruthyNum o then o else none

/-- `x || false` for an optional boolean. -/
def jsOrFalse (o : Option Bool) : Bool :=
  o.getD false

/-- `currency || 'USD'` — an absent or empty currency string is falsy. -/
def jsOrUSD (o : Option String) : String :=
  match o with
  | some c => if c = "" then "USD" else c
  | none => "USD"

/-! ## Unit-value parser (`extractUnitValue`, src/server/index.js lines 170-174)

The source applies the regex `/(\d+(?:\.\d+)?)/` to the string and returns
`parseFloat` of the first (leftmost) match, defaulting to `1` when there is
no match.  The leftmost match of that pattern starts at the first digit of
the string, takes the maximal run of digits, and then — only if a `.`
followed by at least one digit comes next — the `.` and the maximal digit
run after it. -/

/-- Numeric value of one decimal digit character. -/
def digitVal (c : Char) : Nat := c.toNat - '0'.toNat

/-- Value of a list of decimal digit characters read left to right. -/
def digitsVal (ds : List Char) : Nat :=
  ds.foldl (fun acc c => 10 * acc + digitVal c) 0

/-- Maximal run of digit characters at the head of the list. -/
def takeDigits : List Char → List Char
  | [] => []
  | c :: cs => if c.isDigit then c :: takeDigits cs else []

/-- What remains after the maximal head run of digit characters. -/
def dropDigits : List Char → List Char
  | [] => []
  | c :: cs => if c.isDigit then dropDigits cs else c :: cs

/-- Exact value of a matched token `intDs . fracDs`. -/
def tokenValue (intDs fracDs : List Char) : ℚ :=
  (digitsVal intDs : ℚ) + (digitsVal fracDs : ℚ) / (10 : ℚ) ^ fracDs.length

/-- Leftmost match of `\d+(\.\d+)?` in the character list, as its exact
numeric value (`parseFloat` of the matched token is exact: the token is
`digits` or `digits.digits`). -/
def scanNumber : List Char → Option ℚ
  | [] => none
  | c :: cs =>
    if c.isDigit then
      let intDs := takeDigits (c :: cs)
      match dropDigits (c :: cs) with
      | '.' :: r2 =>
        let fracDs := takeDigits r2
        if fracDs.isEmpty then some ((digitsVal intDs : ℚ))
        else some (tokenValue intDs fracDs)
      | _ => some ((digitsVal intDs : ℚ))
    else scanNumber cs

/-- `extractUnitValue` (src/server/index.js lines 170-174): first number in
the string, else `1`. -/
def extractUnitValue (s : String) : ℚ :=
  (scanNumber s.data).getD 1

example : extractUnitValue "2 kg" = 2 := by decide
example : extractUnitValue "kg" = 1 := by decide
example : extractUnitValue "" = 1 := by decide
example : extractUnitValue "1.5 L" = 3/2 := by
  have h : extractUnitValue "1.5 L" = ((1 : ℕ) : ℚ) + ((5 : ℕ) : ℚ) / (10 : ℚ) ^ 1 := rfl
  rw [h]; norm_num
example : extractUnitValue "0 kg" = 0 := by decide
example : extractUnitValue "2 kg x 3" = 2 := by decide
example : extractUnitValue "500 g" = 500 := by decide
example : extractUnitValue "12.x" = 12 := by decide

/-! ## Data model

Documents of the collections the claims touch.  Only the fields the core
logic reads are modelled; `id` stands for the Mongo `_id`. -/

/-- A SKU document (the upsert engine only reads `unit_value`). -/
structure Sku where
  id : Nat
  unit_value : String
deriving DecidableEq

/-- A PriceMapping document (src/server/index.js lines 125-134). -/
structure PriceMapping where
  id : Nat
  sku_id : Nat
  vendor_id : Nat
  location_id : Nat
  price : ℚ
  struck_price : Option ℚ
  is_discounted : Bool
  unit_price : ℚ
  currency : String
deriving DecidableEq

/-- The persistent store: the collections the price-mapping core touches.
Vendors and simple locations only matter by id here.  `nextId` supplies the
fresh `_id` Mongo would mint on insert. -/
structure Db where
  skus : List Sku
  vendors : List Nat
  locations : List Nat
  mappings : List PriceMapping
  nextId : Nat
deriving DecidableEq

/-- The `findOne({sku_id, vendor_id, location_id})` filter. -/
def tripleMatch (sku_id vendor_id location_id : Nat) (m : PriceMapping) : Bool :=
  m.sku_id == sku_id && m.vendor_id == vendor_id && m.location_id == location_id

/-- Number of PriceMapping records for one (sku, vendor, location) triple. -/
def tripleCount (db : Db) (sku_id vendor_id location_id : Nat) : Nat :=
  db.mappings.countP (tripleMatch sku_id vendor_id location_id)

/-! ## Price-mapping upsert engine

`upsertCore` is the block shared verbatim by the two entry points
(src/server/index.js lines 1298-1328 and 1404-1432): look up an existing
mapping for the triple; if found, assign the five price fields on that
document and `save()` it (a rewrite of the document with that `_id`);
otherwise construct and `save()` a fresh document. -/

/-- Outcome discriminator of the check-then-write upsert. -/
inductive UpsertOutcome where
  | updated (id : Nat)
  | created (id : Nat)
deriving DecidableEq

/-- The five field assignments performed on an existing mapping
(src/server/index.js lines 1307-1311 / 1413-1417). -/
def overwriteFields (price : ℚ) (struck_price : Option ℚ) (is_discounted : Option Bool)
    (currency : Option String) (unitPrice : ℚ) (m : PriceMapping) : PriceMapping :=
  { m with
    price := price
    struck_price := jsOrNull struck_price
    is_discounted := jsOrFalse is_discounted
    unit_price := unitPrice
    currency := jsOrUSD currency }

/-- The fresh document built by `new PriceMapping({...})`
(src/server/index.js lines 1316-1325 / 1421-1430). -/
def newMapping (db : Db) (sku_id vendor_id location_id : Nat) (price : ℚ)
    (struck_price : Option ℚ) (is_discounted : Option Bool) (currency : Option String)
    (unitPrice : ℚ) : PriceMapping :=
  { id := db.nextId
    sku_id := sku_id
    vendor_id := vendor_id
    location_id := location_id
    price := price
    struck_price := jsOrNull struck_price
    is_discounted := jsOrFalse is_discounted
    unit_price := unitPrice
    currency := jsOrUSD currency }

/-- Check-then-write upsert (src/server/index.js lines 1298-1328, duplicated
at 1404-1432 inside the bulk importer). -/
def upsertCore (db : Db) (sku_id vendor_id location_id : Nat) (price : ℚ)
    (struck_price : Option ℚ) (is_discounted : Option Bool) (currency : Option String)
    (unitPrice : ℚ) : UpsertOutcome × Db :=
  match db.mappings.find? (tripleMatch sku_id vendor_id location_id) with
  | some existing =>
    (UpsertOutcome.updated existing.id,
     { db with
       mappings := db.mappings.map fun m =>
         if m.id == existing.id then
           overwriteFields price struck_price is_discounted currency unitPrice m
         else m })
  | none =>
    let pm := newMapping db sku_id vendor_id location_id price
      struck_price is_discounted currency unitPrice
    (UpsertOutcome.created pm.id,
     { db with mappings := db.mappings ++ [pm], nextId := db.nextId + 1 })

/-- Request body of `POST /api/price-mappings`; absent JSON members are
`none`. -/
structure UpsertInput where
  sku_id : Nat
  vendor_id : Nat
  location_id : Nat
  price : ℚ
  struck_price : Option ℚ
  is_discounted : Option Bool
  currency : Option String
deriving DecidableEq

/-- Responses the price-mapping endpoints can produce. -/
inductive ApiResponse where
  | ok (id : Nat) (message : String)
  | badRequest (error : String)
deriving DecidableEq

/-- `POST /api/price-mappings` (src/server/index.js lines 1279-1332): resolve
the SKU, validate the struck price, derive the unit price, then upsert. -/
def postPriceMapping (db : Db) (inp : UpsertInput) : ApiResponse × Db :=
  match db.skus.find? (fun s => s.id == inp.sku_id) with
  | none => (ApiResponse.badRequest "SKU not found", db)
  | some sku =>
    if jsTruthyNum inp.struck_price ∧ inp.price ≤ inp.struck_price.getD 0 then
      (ApiResponse.badRequest "Struck price must be lower than the regular price", db)
    else
      let unitPrice := inp.price / extractUnitValue sku.unit_value
      match upsertCore db inp.sku_id inp.vendor_id inp.location_id inp.price
          inp.struck_price inp.is_discounted inp.currency unitPrice with
      | (UpsertOutcome.updated id, db') =>
        (ApiResponse.ok id "Price mapping updated successfully", db')
      | (UpsertOutcome.created id, db') =>
        (ApiResponse.ok id "Price mapping created successfully", db')

/-! ## Bulk import reconciler (`POST /api/upload-excel`,
src/server/index.js lines 1344-1453)

A parsed spreadsheet row; a column that is absent in the sheet is `none`.
Ids in the sheet are strings; an absent or empty id cell is falsy, which the
embedding folds into `none`. -/

structure Row where
  sku_id : Option Nat
  vendor_id : Option Nat
  location_id : Option Nat
  price : Option ℚ
  struck_price : Option ℚ
  is_discounted : Option Bool
  currency : Option String
deriving DecidableEq

instance : Inhabited Row := ⟨⟨none, none, none, none, none, none, none⟩⟩

/-- The guard `!sku_id || !vendor_id || !location_id || !price`
(src/server/index.js line 1364), as "all four are truthy". -/
def rowComplete (r : Row) : Bool :=
  r.sku_id.isSome && r.vendor_id.isSome && r.location_id.isSome && jsTruthyNum r.price

/-- One iteration of the row loop (src/server/index.js lines 1360-1437):
either an error message pushed onto `errors`, or a successful write.  The
loop variable `index` is 0-based; messages cite physical row `index + 2`
(one for the header row, one for 1-basing). -/
def processRow (db : Db) (idx : Nat) (r : Row) : Option String × Db :=
  if ¬ rowComplete r then
    (some ("Row " ++ toString (idx + 2) ++
      ": " ++ "Missing required fields (sku_id, vendor_id, location_id, price)"), db)
  else if jsTruthyNum r.struck_price ∧ r.price.getD 0 ≤ r.struck_price.getD 0 then
    (some ("Row " ++ toString (idx + 2) ++
      ": " ++ "Struck price must be lower than the regular price"), db)
  else
    match db.skus.find? (fun s => s.id == r.sku_id.getD 0) with
    | none =>
      (some ("Row " ++ toString (idx + 2) ++ ": " ++ "SKU with ID \"" ++
        toString (r.sku_id.getD 0) ++ "\" not found"), db)
    | some sku =>
      match db.vendors.find? (fun v => v == r.vendor_id.getD 0) with
      | none =>
        (some ("Row " ++ toString (idx + 2) ++ ": " ++ "Vendor with ID \"" ++
          toString (r.vendor_id.getD 0) ++ "\" not found"), db)
      | some _ =>
        match db.locations.find? (fun l => l == r.location_id.getD 0) with
        | none =>
          (some ("Row " ++ toString (idx + 2) ++ ": " ++ "Location with ID \"" ++
            toString (r.location_id.getD 0) ++ "\" not found"), db)
        | some _ =>
          let unitPrice := r.price.getD 0 / extractUnitValue sku.unit_value
          (none,
           (upsertCore db (r.sku_id.getD 0) (r.vendor_id.getD 0) (r.location_id.getD 0)
             (r.price.getD 0) r.struck_price r.is_discounted r.currency unitPrice).2)

/-- The `for` loop of the importer: sequential rows, mutable
`successCount` / `errorCount` / `errors` accumulators, evolving store. -/
def processRows (db : Db) (rows : List Row) (idx successCount errorCount : Nat)
    (errors : List String) : Nat × Nat × List String × Db :=
  match rows with
  | [] => (successCount, errorCount, errors, db)
  | r :: rest =>
    match processRow db idx r with
    | (some msg, db') =>
      processRows db' rest (idx + 1) successCount (errorCount + 1) (errors ++ [msg])
    | (none, db') =>
      processRows db' rest (idx + 1) (successCount + 1) errorCount errors

/-- The JSON report of a completed bulk import
(src/server/index.js lines 1443-1448). -/
structure Report where
  message : String
  successCount : Nat
  errorCount : Nat
  errors : List String
deriving DecidableEq

/-- What the upload handler leaves behind: the HTTP outcome (report or
500-level error), whether `fs.unlinkSync(req.file.path)` ran, and the store. -/
structure UploadOutcome where
  response : Except String Report
  fileDeleted : Bool
  db : Db

/-- `POST /api/upload-excel` after multer stored the file
(src/server/index.js lines 1349-1452).  `parsed` is the result of
`xlsx.readFile` + `sheet_to_json`: `Except.error` when reading the workbook
throws.  The `unlinkSync` sits inside the `try`, after the loop; the `catch`
returns a 500 without deleting the file. -/
def uploadExcel (db : Db) (parsed : Except String (List Row)) : UploadOutcome :=
  match parsed with
  | Except.error e =>
    { response := Except.error ("Error processing Excel file: " ++ e)
      fileDeleted := false
      db := db }
  | Except.ok rows =>
    match processRows db rows 0 0 0 [] with
    | (successCount, errorCount, errors, db') =>
      { response := Except.ok
          { message := "Excel upload processed"
            successCount := successCount
            errorCount := errorCount
            errors := errors.take 10 }
        fileDeleted := true
        db := db' }

/-! ## SKU buying-price VAT middleware (src/server/index.js lines 73-96)

`preSave` runs on `SKU.save()` (document create); `applySkuUpdate` models
`SKU.findByIdAndUpdate` with the `pre('findOneAndUpdate')` hook, which sees
only the update object, not the stored document. -/

/-- The buying-price fields of a SKU document. -/
structure SkuDoc where
  buying_price : ℚ
  buying_vat : ℚ
  buying_price_without_vat : ℚ
deriving DecidableEq

/-- The update object handed to `findByIdAndUpdate`: a field not listed in
the update is `none` and keeps its stored value. -/
structure SkuUpdate where
  buying_price : Option ℚ
  buying_vat : Option ℚ
deriving DecidableEq

/-- `skuSchema.pre('save')` (src/server/index.js lines 74-83). -/
def preSave (d : SkuDoc) : SkuDoc :=
  if d.buying_price ≠ 0 ∧ 0 < d.buying_vat then
    { d with buying_price_without_vat := d.buying_price / (1 + d.buying_vat / 100) }
  else if d.buying_price ≠ 0 then
    { d with buying_price_without_vat := d.buying_price }
  else
    { d with buying_price_without_vat := 0 }

/-- `skuSchema.pre('findOneAndUpdate')` (src/server/index.js lines 86-96):
the `buying_price_without_vat` the hook adds to the update object, if any.
`update.buying_vat > 0` is false when the field is absent. -/
def updateBpwv (u : SkuUpdate) : Option ℚ :=
  if jsTruthyNum u.buying_price ∧ 0 < u.buying_vat.getD 0 then
    some (u.buying_price.getD 0 / (1 + u.buying_vat.getD 0 / 100))
  else if jsTruthyNum u.buying_price then
    some (u.buying_price.getD 0)
  else if u.buying_price.isSome ∨ u.buying_vat.isSome then
    some 0
  else
    none

/-- Effect of `findByIdAndUpdate` on the stored document: fields in the
update object (including the hook's derived field) replace stored values,
fields not in it are kept. -/
def applySkuUpdate (d : SkuDoc) (u : SkuUpdate) : SkuDoc :=
  { buying_price := u.buying_price.getD d.buying_price
    buying_vat := u.buying_vat.getD d.buying_vat
    buying_price_without_vat := (updateBpwv u).getD d.buying_price_without_vat }

/-- The spec's stated invariant on a stored SKU: `buying_price_without_vat =
buying_price / (1 + buying_vat/100)` when `buying_vat > 0`, else equal to
`buying_price`. -/
def vatInvariant (d : SkuDoc) : Prop :=
  (0 < d.buying_vat → d.buying_price_without_vat = d.buying_price / (1 + d.buying_vat / 100))
  ∧ (d.buying_vat = 0 → d.buying_price_without_vat = d.buying_price)

/-! ## Decomposition of the row loop

`rowInvalid` / `rowMsg` restate the cascade of per-row checks of the import
loop as predicates of the row against the lookup collections, so that the
loop's observable output can be described as a pure map over the rows. -/

/-- A row the import loop rejects: missing/falsy required field, bad struck
price, or an id that does not resolve — in the source's check order. -/
def rowInvalid (db : Db) (r : Row) : Bool :=
  if ¬ rowComplete r then true
  else if jsTruthyNum r.struck_price ∧ r.price.getD 0 ≤ r.struck_price.getD 0 then true
  else if (db.skus.find? (fun s => s.id == r.sku_id.getD 0)).isNone then true
  else if (db.vendors.find? (fun v => v == r.vendor_id.getD 0)).isNone then true
  else if (db.locations.find? (fun l => l == r.location_id.getD 0)).isNone then true
  else false

/-- The part of an invalid row's error message after the row number. -/
def rowMsgBody (db : Db) (r : Row) : String :=
  if ¬ rowComplete r then
    "Missing required fields (sku_id, vendor_id, location_id, price)"
  else if jsTruthyNum r.struck_price ∧ r.price.getD 0 ≤ r.struck_price.getD 0 then
    "Struck price must be lower than the regular price"
  else if (db.skus.find? (fun s => s.id == r.sku_id.getD 0)).isNone then
    "SKU with ID \"" ++ toString (r.sku_id.getD 0) ++ "\" not found"
  else if (db.vendors.find? (fun v => v == r.vendor_id.getD 0)).isNone then
    "Vendor with ID \"" ++ toString (r.vendor_id.getD 0) ++ "\" not found"
  else
    "Location with ID \"" ++ toString (r.location_id.getD 0) ++ "\" not found"

/-- The error message the loop records for an invalid row at 0-based index
`idx`. -/
def rowMsg (db : Db) (idx : Nat) (r : Row) : String :=
  "Row " ++ toString (idx + 2) ++ ": " ++ rowMsgBody db r

/-- The error messages of a row sequence starting at 0-based index `idx`, in
row order: one message per invalid row, none for valid rows. -/
def rowMsgs (db : Db) (idx : Nat) : List Row → List String
  | [] => []
  | r :: rest =>
    if rowInvalid db r then rowMsg db idx r :: rowMsgs db (idx + 1) rest
    else rowMsgs db (idx + 1) rest

/-- The upsert only writes to the PriceMapping collection: the three lookup
collections are untouched. -/
theorem upsertCore_lookups (db : Db) (s v l : Nat) (price : ℚ) (st : Option ℚ)
    (di : Option Bool) (cu : Option String) (up : ℚ) :
    (upsertCore db s v l price st di cu up).2.skus = db.skus
    ∧ (upsertCore db s v l price st di cu up).2.vendors = db.vendors
    ∧ (upsertCore db s v l price st di cu up).2.locations = db.locations := by
  unfold upsertCore
  cases db.mappings.find? (tripleMatch s v l) <;> simp

/-- The error component of one loop iteration, as the decomposed predicates. -/
theorem processRow_fst (db : Db) (idx : Nat) (r : Row) :
    (processRow db idx r).1 = if rowInvalid db r then some (rowMsg db idx r) else none := by
  unfold processRow rowInvalid rowMsg rowMsgBody
  by_cases h1 : rowComplete r
  · by_cases h2 : jsTruthyNum r.struck_price ∧ r.price.getD 0 ≤ r.struck_price.getD 0
    · simp [h1, h2]
    · cases hs : db.skus.find? (fun s => s.id == r.sku_id.getD 0) with
      | none => simp [h1, h2, hs]; simp only [String.append_assoc]
      | some sku =>
        cases hv : db.vendors.find? (fun v => v == r.vendor_id.getD 0) with
        | none => simp [h1, h2, hs, hv]; simp only [String.append_assoc]
        | some _ =>
          cases hl : db.locations.find? (fun l => l == r.location_id.getD 0) with
          | none => simp [h1, h2, hs, hv, hl]; simp only [String.append_assoc]
          | some _ => simp [h1, h2, hs, hv, hl]
  · simp [h1]

/-- An invalid row is not written: the store is returned unchanged. -/
theorem processRow_snd_of_invalid (db : Db) (idx : Nat) (r : Row)
    (h : rowInvalid db r = true) : (processRow db idx r).2 = db := by
  unfold processRow
  unfold rowInvalid at h
  by_cases h1 : rowComplete r
  · by_cases h2 : jsTruthyNum r.struck_price ∧ r.price.getD 0 ≤ r.struck_price.getD 0
    · simp [h1, h2]
    · cases hs : db.skus.find? (fun s => s.id == r.sku_id.getD 0) with
      | none => simp [h1, h2, hs]
      | some sku =>
        cases hv : db.vendors.find? (fun v => v == r.vendor_id.getD 0) with
        | none => simp [h1, h2, hs, hv]
        | some _ =>
          cases hl : db.locations.find? (fun l => l == r.location_id.getD 0) with
          | none => simp [h1, h2, hs, hv, hl]
          | some _ => simp [h1, h2, hs, hv, hl] at h
  · simp [h1]

/-- One loop iteration never touches the lookup collections. -/
theorem processRow_lookups (db : Db) (idx : Nat) (r : Row) :
    (processRow db idx r).2.skus = db.skus
    ∧ (processRow db idx r).2.vendors = db.vendors
    ∧ (processRow db idx r).2.locations = db.locations := by
  unfold processRow
  by_cases h1 : rowComplete r
  · by_cases h2 : jsTruthyNum r.struck_price ∧ r.price.getD 0 ≤ r.struck_price.getD 0
    · simp [h1, h2]
    · cases hs : db.skus.find? (fun s => s.id == r.sku_id.getD 0) with
      | none => simp [h1, h2, hs]
      | some sku =>
        cases hv : db.vendors.find? (fun v => v == r.vendor_id.getD 0) with
        | none => simp [h1, h2, hs, hv]
        | some _ =>
          cases hl : db.locations.find? (fun l => l == r.location_id.getD 0) with
          | none => simp [h1, h2, hs, hv, hl]
          | some _ =>
            simp only [h1, h2, hs, hv, hl]
            simpa using upsertCore_lookups db (r.sku_id.getD 0) (r.vendor_id.getD 0)
              (r.location_id.getD 0) (r.price.getD 0) r.struck_price r.is_discounted
              r.currency (r.price.getD 0 / extractUnitValue sku.unit_value)
  · simp [h1]

/-- Row validity only reads the lookup collections. -/
theorem rowInvalid_congr (db db' : Db) (hs : db'.skus = db.skus)
    (hv : db'.vendors = db.vendors) (hl : db'.locations = db.locations) (r : Row) :
    rowInvalid db' r = rowInvalid db r := by
  unfold rowInvalid; rw [hs, hv, hl]

/-- Row error messages only read the lookup collections. -/
theorem rowMsg_congr (db db' : Db) (hs : db'.skus = db.skus)
    (hv : db'.vendors = db.vendors) (idx : Nat) (r : Row) :
    rowMsg db' idx r = rowMsg db idx r := by
  unfold rowMsg rowMsgBody; rw [hs, hv]

/-- Message sequences only read the lookup collections. -/
theorem rowMsgs_congr (db db' : Db) (hs : db'.skus = db.skus)
    (hv : db'.vendors = db.vendors) (hl : db'.locations = db.locations) :
    ∀ (rows : List Row) (idx : Nat), rowMsgs db' idx rows = rowMsgs db idx rows := by
  intro rows
  induction rows with
  | nil => intro idx; rfl
  | cons r rest ih =>
    intro idx
    unfold rowMsgs
    rw [rowInvalid_congr db db' hs hv hl, rowMsg_congr db db' hs hv, ih]

/-- One error message per invalid row. -/
theorem rowMsgs_length (db : Db) :
    ∀ (rows : List Row) (idx : Nat),
      (rowMsgs db idx rows).length = rows.countP (rowInvalid db) := by
  intro rows
  induction rows with
  | nil => intro idx; simp [rowMsgs]
  | cons r rest ih =>
    intro idx
    unfold rowMsgs
    cases hinv : rowInvalid db r <;> simp [hinv, ih, List.countP_cons]

/-- The loop's accumulators, described against the initial store: a valid
row bumps the success counter, an invalid row bumps the error counter and
appends its message, and row validity can be judged against the initial
store because the loop never writes the lookup collections. -/
theorem processRows_spec (rows : List Row) :
    ∀ (db : Db) (idx sc ec : Nat) (errs : List String),
      (processRows db rows idx sc ec errs).1
          = sc + rows.countP (fun r => !rowInvalid db r)
      ∧ (processRows db rows idx sc ec errs).2.1
          = ec + rows.countP (rowInvalid db)
      ∧ (processRows db rows idx sc ec errs).2.2.1 = errs ++ rowMsgs db idx rows := by
  induction rows with
  | nil => intro db idx sc ec errs; simp [processRows, rowMsgs]
  | cons r rest ih =>
    intro db idx sc ec errs
    cases hinv : rowInvalid db r with
    | true =>
      have h1 := processRow_fst db idx r
      rw [hinv, if_pos rfl] at h1
      have h2 := processRow_snd_of_invalid db idx r hinv
      have hrow : processRow db idx r = (some (rowMsg db idx r), db) := by
        calc processRow db idx r
            = ((processRow db idx r).1, (processRow db idx r).2) := rfl
          _ = (some (rowMsg db idx r), db) := by rw [h1, h2]
      rw [show processRows db (r :: rest) idx sc ec errs
            = processRows db rest (idx + 1) sc (ec + 1) (errs ++ [rowMsg db idx r]) from by
        simp only [processRows, hrow]]
      obtain ⟨ih1, ih2, ih3⟩ := ih db (idx + 1) sc (ec + 1) (errs ++ [rowMsg db idx r])
      refine ⟨?_, ?_, ?_⟩
      · rw [ih1, List.countP_cons_of_neg]
        simp [hinv]
      · rw [ih2, List.countP_cons_of_pos _ _ (by simp [hinv])]
        omega
      · rw [ih3]
        simp [rowMsgs, hinv]
    | false =>
      have h1 := processRow_fst db idx r
      rw [hinv, if_neg (by simp)] at h1
      obtain ⟨hs, hv, hl⟩ := processRow_lookups db idx r
      rcases hrow : processRow db idx r with ⟨o, db2⟩
      rw [hrow] at h1 hs hv hl
      simp only at h1 hs hv hl
      subst h1
      rw [show processRows db (r :: rest) idx sc ec errs
            = processRows db2 rest (idx + 1) (sc + 1) ec errs from by
        simp only [processRows, hrow]]
      obtain ⟨ih1, ih2, ih3⟩ := ih db2 (idx + 1) (sc + 1) ec errs
      refine ⟨?_, ?_, ?_⟩
      · rw [ih1, List.countP_cons_of_pos _ _ (by simp [hinv]),
          List.countP_congr fun x hx => by
            rw [rowInvalid_congr db db2 hs hv hl x]]
        omega
      · rw [ih2, List.countP_cons_of_neg _ _ (by simp [hinv]),
          List.countP_congr fun x hx => by
            rw [rowInvalid_congr db db2 hs hv hl x]]
      · rw [ih3, rowMsgs_congr db db2 hs hv hl rest (idx + 1)]
        simp [rowMsgs, hinv]

/-! ## Uniqueness of the (sku, vendor, location) triple -/

/-- The overwrite of the five price fields keeps the key fields, so the
triple filter cannot distinguish the document before and after. -/
theorem tripleMatch_overwriteFields (s v l : Nat) (price : ℚ) (st : Option ℚ)
    (di : Option Bool) (cu : Option String) (up : ℚ) (m : PriceMapping) :
    tripleMatch s v l (overwriteFields price st di cu up m) = tripleMatch s v l m := rfl

/-- In a list with at most one element satisfying `p`, any member satisfying
`p` is exactly the element `find?` returns. -/
theorem find?_eq_of_countP_le_one {α : Type} {p : α → Bool} :
    ∀ {l : List α} {a : α}, l.countP p ≤ 1 → a ∈ l → p a = true → l.find? p = some a := by
  intro l
  induction l with
  | nil => intro a h ha hp; cases ha
  | cons x xs ih =>
    intro a h ha hp
    by_cases hx : p x = true
    · rw [List.find?_cons_of_pos _ hx]
      rcases List.mem_cons.mp ha with rfl | hmem
      · rfl
      · exfalso
        rw [List.countP_cons_of_pos _ _ hx] at h
        have h0 : xs.countP p = 0 := by omega
        have := List.countP_eq_zero.mp h0 a hmem
        simp [hp] at this
    · rw [List.find?_cons_of_neg _ hx]
      rcases List.mem_cons.mp ha with rfl | hmem
      · exact absurd hp hx
      · rw [List.countP_cons_of_neg _ _ hx] at h
        exact ih h hmem hp

/-- The update path rewrites documents in place, so every triple keeps its
record count. -/
theorem countP_map_overwrite (mappings : List PriceMapping) (eid : Nat) (price : ℚ)
    (st : Option ℚ) (di : Option Bool) (cu : Option String) (up : ℚ) (s' v' l' : Nat) :
    (mappings.map fun m =>
        if m.id == eid then overwriteFields price st di cu up m else m).countP
        (tripleMatch s' v' l')
      = mappings.countP (tripleMatch s' v' l') := by
  rw [List.countP_map]
  refine List.countP_congr ?_
  intro m hm
  by_cases h : (m.id == eid) = true
  · simp [Function.comp, h, tripleMatch_overwriteFields]
  · simp [Function.comp, h]

/-- The upsert when a document for the triple already exists. -/
theorem upsertCore_found (db : Db) (s v l : Nat) (price : ℚ) (st : Option ℚ)
    (di : Option Bool) (cu : Option String) (up : ℚ) (ex : PriceMapping)
    (hfind : db.mappings.find? (tripleMatch s v l) = some ex) :
    upsertCore db s v l price st di cu up
      = (UpsertOutcome.updated ex.id,
         { db with
           mappings := db.mappings.map fun m =>
             if m.id == ex.id then overwriteFields price st di cu up m else m }) := by
  unfold upsertCore; rw [hfind]

/-- The upsert when no document for the triple exists. -/
theorem upsertCore_not_found (db : Db) (s v l : Nat) (price : ℚ) (st : Option ℚ)
    (di : Option Bool) (cu : Option String) (up : ℚ)
    (hfind : db.mappings.find? (tripleMatch s v l) = none) :
    upsertCore db s v l price st di cu up
      = (UpsertOutcome.created db.nextId,
         { db with
           mappings := db.mappings ++ [newMapping db s v l price st di cu up]
           nextId := db.nextId + 1 }) := by
  unfold upsertCore; rw [hfind]; rfl

/-- **C1.** On every store with at most one PriceMapping per (sku, vendor,
location) triple, the upsert — the write step shared by the single-record
endpoint and every bulk-import row — preserves that uniqueness; when a
record for the triple exists it overwrites `price`, `struck_price`,
`is_discounted`, `unit_price` and `currency` on that same record (the
result reports that record's identity), the collection size is unchanged
(no second record is inserted), and the count for the triple stays 1. -/
theorem upsert_preserves_triple_uniqueness (db : Db) (s v l : Nat) (price : ℚ)
    (struck : Option ℚ) (disc : Option Bool) (curr : Option String) (unitPrice : ℚ)
    (huniq : ∀ s' v' l', tripleCount db s' v' l' ≤ 1) :
    (∀ s' v' l',
      tripleCount (upsertCore db s v l price struck disc curr unitPrice).2 s' v' l' ≤ 1)
    ∧ ∀ m0 ∈ db.mappings, tripleMatch s v l m0 = true →
        (upsertCore db s v l price struck disc curr unitPrice).1
            = UpsertOutcome.updated m0.id
        ∧ (upsertCore db s v l price struck disc curr unitPrice).2.mappings.length
            = db.mappings.length
        ∧ tripleCount (upsertCore db s v l price struck disc curr unitPrice).2 s v l = 1
        ∧ ∀ m1 ∈ (upsertCore db s v l price struck disc curr unitPrice).2.mappings,
            m1.id = m0.id →
              m1.price = price ∧ m1.struck_price = jsOrNull struck
              ∧ m1.is_discounted = jsOrFalse disc ∧ m1.unit_price = unitPrice
              ∧ m1.currency = jsOrUSD curr := by
  cases hfind : db.mappings.find? (tripleMatch s v l) with
  | some ex =>
    rw [upsertCore_found db s v l price struck disc curr unitPrice ex hfind]
    constructor
    · intro s' v' l'
      unfold tripleCount
      rw [show ({ db with
            mappings := db.mappings.map fun m =>
              if m.id == ex.id then overwriteFields price struck disc curr unitPrice m
              else m } : Db).mappings
          = db.mappings.map fun m =>
              if m.id == ex.id then overwriteFields price struck disc curr unitPrice m
              else m from rfl]
      rw [countP_map_overwrite]
      exact huniq s' v' l'
    · intro m0 hm0 hmatch
      have hm0find := find?_eq_of_countP_le_one (huniq s v l) hm0 hmatch
      rw [hfind] at hm0find
      have hex : ex = m0 := by injection hm0find
      subst hex
      refine ⟨rfl, ?_, ?_, ?_⟩
      · simp
      · unfold tripleCount
        rw [show ({ db with
              mappings := db.mappings.map fun m =>
                if m.id == ex.id then overwriteFields price struck disc curr unitPrice m
                else m } : Db).mappings
            = db.mappings.map fun m =>
                if m.id == ex.id then overwriteFields price struck disc curr unitPrice m
                else m from rfl]
        rw [countP_map_overwrite]
        have hpos : 0 < db.mappings.countP (tripleMatch s v l) :=
          List.countP_pos_iff.mpr ⟨ex, hm0, hmatch⟩
        have := huniq s v l
        unfold tripleCount at this
        omega
      · intro m1 hm1 hid
        simp only at hm1
        obtain ⟨m, hm, hfm⟩ := List.mem_map.mp hm1
        by_cases h : (m.id == ex.id) = true
        · rw [if_pos h] at hfm
          subst hfm
          simp [overwriteFields, jsOrNull, jsOrFalse, jsOrUSD]
        · rw [if_neg h] at hfm
          subst hfm
          exact absurd (beq_iff_eq.mpr hid) h
  | none =>
    rw [upsertCore_not_found db s v l price struck disc curr unitPrice hfind]
    have h0 : db.mappings.countP (tripleMatch s v l) = 0 :=
      List.countP_eq_zero.mpr fun m hm => by
        simpa using List.find?_eq_none.mp hfind m hm
    constructor
    · intro s' v' l'
      unfold tripleCount
      rw [show ({ db with
            mappings := db.mappings ++ [newMapping db s v l price struck disc curr unitPrice]
            nextId := db.nextId + 1 } : Db).mappings
          = db.mappings ++ [newMapping db s v l price struck disc curr unitPrice] from rfl]
      rw [List.countP_append]
      by_cases hm : tripleMatch s' v' l'
          (newMapping db s v l price struck disc curr unitPrice) = true
      · have hkeys : (s = s' ∧ v = v') ∧ l = l' := by
          simpa [tripleMatch, newMapping] using hm
        obtain ⟨⟨rfl, rfl⟩, rfl⟩ := hkeys
        rw [h0]
        simp [hm, List.countP_cons]
      · have h1 : List.countP (tripleMatch s' v' l')
            [newMapping db s v l price struck disc curr unitPrice] = 0 := by
          simp [List.countP_cons, hm]
        rw [h1]
        have := huniq s' v' l'
        unfold tripleCount at this
        omega
    · intro m0 hm0 hmatch
      exact absurd hmatch (by simpa using List.find?_eq_none.mp hfind m0 hm0)

/-- A store holding one SKU ("500 g"), one vendor, one price-location and
one existing mapping for the triple (1, 2, 3) — the concrete store for the
closed witness instances. -/
def dbOne : Db :=
  { skus := [{ id := 1, unit_value := "500 g" }]
    vendors := [2]
    locations := [3]
    mappings := [{ id := 0
                   sku_id := 1
                   vendor_id := 2
                   location_id := 3
                   price := 20
                   struck_price := none
                   is_discounted := false
                   unit_price := 1/25
                   currency := "USD" }]
    nextId := 1 }

/-- Witness for C1 at a one-record store: upserting the triple (1, 2, 3)
again keeps every triple at no more than one record. -/
theorem upsert_preserves_triple_uniqueness_witness :
    tripleCount (upsertCore dbOne 1 2 3 18 none none none (9/250)).2 1 2 3 ≤ 1 :=
  (upsert_preserves_triple_uniqueness dbOne 1 2 3 18 none none none (9/250)
    (fun s' v' l' => le_trans (List.countP_le_length _) (by simp [tripleCount, dbOne]))).1
    1 2 3

/-- **C2.** When the SKU resolves, the struck-price validation passes and no
mapping exists for the triple, the endpoint creates exactly one new
PriceMapping — the old collection plus a single appended record — whose
`unit_price` is the price divided by the magnitude the unit-value parser
extracts from the SKU's `unit_value`. -/
theorem upsert_creates_one_mapping (db : Db) (inp : UpsertInput) (sku : Sku)
    (hsku : db.skus.find? (fun s => s.id == inp.sku_id) = some sku)
    (hstruck : ¬ (jsTruthyNum inp.struck_price = true
        ∧ inp.price ≤ inp.struck_price.getD 0))
    (hnone : db.mappings.find?
        (tripleMatch inp.sku_id inp.vendor_id inp.location_id) = none) :
    ∃ pm : PriceMapping,
      (postPriceMapping db inp).2.mappings = db.mappings ++ [pm]
      ∧ (postPriceMapping db inp).1
          = ApiResponse.ok pm.id "Price mapping created successfully"
      ∧ pm.sku_id = inp.sku_id ∧ pm.vendor_id = inp.vendor_id
      ∧ pm.location_id = inp.location_id ∧ pm.price = inp.price
      ∧ pm.unit_price = inp.price / extractUnitValue sku.unit_value := by
  have hpost : postPriceMapping db inp
      = (ApiResponse.ok db.nextId "Price mapping created successfully",
         { db with
           mappings := db.mappings ++ [newMapping db inp.sku_id inp.vendor_id
             inp.location_id inp.price inp.struck_price inp.is_discounted inp.currency
             (inp.price / extractUnitValue sku.unit_value)]
           nextId := db.nextId + 1 }) := by
    unfold postPriceMapping
    rw [hsku]
    simp only [if_neg hstruck, upsertCore_not_found db _ _ _ _ _ _ _ _ hnone]
  exact ⟨newMapping db inp.sku_id inp.vendor_id inp.location_id inp.price inp.struck_price
      inp.is_discounted inp.currency (inp.price / extractUnitValue sku.unit_value),
    by rw [hpost], by rw [hpost]; rfl, rfl, rfl, rfl, rfl, rfl⟩

/-- Witness for C2: a fresh triple (1, 2, 4) on the one-record store creates
exactly one appended mapping with the derived unit price. -/
theorem upsert_creates_one_mapping_witness :
    ∃ pm : PriceMapping,
      (postPriceMapping dbOne ⟨1, 2, 4, 20, none, none, none⟩).2.mappings
          = dbOne.mappings ++ [pm]
      ∧ (postPriceMapping dbOne ⟨1, 2, 4, 20, none, none, none⟩).1
          = ApiResponse.ok pm.id "Price mapping created successfully"
      ∧ pm.sku_id = 1 ∧ pm.vendor_id = 2 ∧ pm.location_id = 4 ∧ pm.price = 20
      ∧ pm.unit_price = 20 / extractUnitValue "500 g" :=
  upsert_creates_one_mapping dbOne ⟨1, 2, 4, 20, none, none, none⟩ ⟨1, "500 g"⟩
    (by decide) (by simp [jsTruthyNum]) (by decide)

/-- **C10.** Optional fields that arrive absent or falsy are stored as
defaults on both write paths: `struck_price` absent or 0 is stored as
`null`, `is_discounted` absent or `false` is stored as `false`, an absent
`currency` is stored as `"USD"` — and on the update path these overwrite
whatever the record held before. -/
theorem upsert_resets_optional_fields (db : Db) (s v l : Nat) (price unitPrice : ℚ)
    (struck : Option ℚ) (disc : Option Bool) (curr : Option String)
    (hstruck : struck = none ∨ struck = some 0)
    (hdisc : disc = none ∨ disc = some false)
    (hcurr : curr = none) :
    (∀ i, (upsertCore db s v l price struck disc curr unitPrice).1
        = UpsertOutcome.updated i →
      ∀ m1 ∈ (upsertCore db s v l price struck disc curr unitPrice).2.mappings,
        m1.id = i →
          m1.struck_price = none ∧ m1.is_discounted = false ∧ m1.currency = "USD")
    ∧ ∀ i, (upsertCore db s v l price struck disc curr unitPrice).1
        = UpsertOutcome.created i →
      (upsertCore db s v l price struck disc curr unitPrice).2.mappings
          = db.mappings ++ [newMapping db s v l price struck disc curr unitPrice]
      ∧ (newMapping db s v l price struck disc curr unitPrice).struck_price = none
      ∧ (newMapping db s v l price struck disc curr unitPrice).is_discounted = false
      ∧ (newMapping db s v l price struck disc curr unitPrice).currency = "USD" := by
  have hn : jsOrNull struck = none := by
    rcases hstruck with rfl | rfl <;> simp [jsOrNull, jsTruthyNum]
  have hf : jsOrFalse disc = false := by
    rcases hdisc with rfl | rfl <;> simp [jsOrFalse]
  have hu : jsOrUSD curr = "USD" := by rw [hcurr]; rfl
  cases hfind : db.mappings.find? (tripleMatch s v l) with
  | some ex =>
    rw [upsertCore_found db s v l price struck disc curr unitPrice ex hfind]
    constructor
    · intro i hi m1 hm1 hid
      have hiex : i = ex.id := by injection hi with h; exact h.symm
      subst hiex
      simp only at hm1
      obtain ⟨m, hm, hfm⟩ := List.mem_map.mp hm1
      by_cases h : (m.id == ex.id) = true
      · rw [if_pos h] at hfm
        subst hfm
        simp [overwriteFields, hn, hf, hu]
      · rw [if_neg h] at hfm
        subst hfm
        exact absurd (beq_iff_eq.mpr hid) h
    · intro i hi
      exact absurd hi (by simp)
  | none =>
    rw [upsertCore_not_found db s v l price struck disc curr unitPrice hfind]
    constructor
    · intro i hi
      exact absurd hi (by simp)
    · intro i hi
      exact ⟨rfl, by simp [newMapping, hn], by simp [newMapping, hf], by simp [newMapping, hu]⟩

/-- Witness for C10: creating a fresh triple (1, 2, 5) with `struck_price`
0, `is_discounted` false and no currency stores null / false / "USD". -/
theorem upsert_resets_optional_fields_witness :
    (upsertCore dbOne 1 2 5 18 (some 0) (some false) none (9/250)).2.mappings
        = dbOne.mappings ++ [newMapping dbOne 1 2 5 18 (some 0) (some false) none (9/250)]
    ∧ (newMapping dbOne 1 2 5 18 (some 0) (some false) none (9/250)).struck_price = none
    ∧ (newMapping dbOne 1 2 5 18 (some 0) (some false) none (9/250)).is_discounted = false
    ∧ (newMapping dbOne 1 2 5 18 (some 0) (some false) none (9/250)).currency = "USD" :=
  (upsert_resets_optional_fields dbOne 1 2 5 18 (9/250) (some 0) (some false) none
    (Or.inr rfl) (Or.inr rfl) rfl).2 1 (by decide)

/-- **C5** (amended).  When the SKU resolves and a *truthy* (nonzero)
struck price at least the price is supplied, the single-record endpoint
fails with the struck-price validation message and leaves the store
untouched; a bulk row with all required fields and a truthy struck price at
least its price records the same structured error and writes nothing. -/
theorem struck_price_rejected (db : Db) (inp : UpsertInput) (sku : Sku)
    (hsku : db.skus.find? (fun s => s.id == inp.sku_id) = some sku)
    (htruthy : jsTruthyNum inp.struck_price = true)
    (hge : inp.price ≤ inp.struck_price.getD 0) :
    postPriceMapping db inp
        = (ApiResponse.badRequest "Struck price must be lower than the regular price", db)
    ∧ ∀ (db2 : Db) (idx : Nat) (r : Row),
        rowComplete r = true → jsTruthyNum r.struck_price = true →
        r.price.getD 0 ≤ r.struck_price.getD 0 →
          processRow db2 idx r
            = (some ("Row " ++ toString (idx + 2) ++ ": "
                ++ "Struck price must be lower than the regular price"), db2) := by
  constructor
  · unfold postPriceMapping
    rw [hsku]
    simp only [if_pos (And.intro htruthy hge)]
  · intro db2 idx r hc ht hge2
    unfold processRow
    rw [if_neg (by simp [hc]), if_pos (And.intro ht hge2)]

/-- Witness for C5: struck price 7 against price 5 on the one-record store
is rejected with the validation message and the store is unchanged. -/
theorem struck_price_rejected_witness :
    postPriceMapping dbOne ⟨1, 2, 3, 5, some 7, none, none⟩
      = (ApiResponse.badRequest "Struck price must be lower than the regular price",
         dbOne) :=
  (struck_price_rejected dbOne ⟨1, 2, 3, 5, some 7, none, none⟩ ⟨1, "500 g"⟩
    (by decide) (by decide) (by decide)).1

/-- Counterexample to C5 as stated: a *zero* struck price is falsy in
JavaScript, so `struck_price && struck_price >= price` skips the check —
with price 0 and struck price 0 (struck ≥ price) the endpoint does not fail
and creates a record; and when the SKU id does not resolve, a bad struck
price surfaces as "SKU not found", not as the struck-price ValidationError. -/
theorem struck_price_claim_counterexample :
    ((postPriceMapping dbOne ⟨1, 2, 4, 0, some 0, none, none⟩).1
        = ApiResponse.ok 1 "Price mapping created successfully"
      ∧ (postPriceMapping dbOne ⟨1, 2, 4, 0, some 0, none, none⟩).2.mappings.length = 2)
    ∧ (postPriceMapping dbOne ⟨9, 2, 3, 5, some 7, none, none⟩).1
        = ApiResponse.badRequest "SKU not found" := by
  refine ⟨⟨?_, ?_⟩, ?_⟩ <;> decide

/-- A string with no digit character has no `\d+(\.\d+)?` match. -/
theorem scanNumber_eq_none_of_no_digit :
    ∀ cs : List Char, (∀ c ∈ cs, c.isDigit = false) → scanNumber cs = none := by
  intro cs
  induction cs with
  | nil => intro h; rfl
  | cons c rest ih =>
    intro h
    unfold scanNumber
    rw [if_neg (by simp [h c (List.mem_cons_self c rest)])]
    exact ih fun x hx => h x (List.mem_cons_of_mem c hx)

/-- **C3** (amended).  The parser's 1.0 fallback only covers inputs with no
numeric token: for a digit-free `unit_value` the result is 1 (nonzero), but
a unit_value whose first numeric token is 0 (e.g. "0 kg") makes the parser
return 0, so the upsert's `price / extractUnitValue …` division by zero is
*not* structurally prevented. -/
theorem extractUnitValue_fallback_nonzero :
    (∀ s : String, (∀ c ∈ s.data, c.isDigit = false) → extractUnitValue s = 1)
    ∧ extractUnitValue "0 kg" = 0 := by
  constructor
  · intro s h
    unfold extractUnitValue
    rw [scanNumber_eq_none_of_no_digit s.data h]
    rfl
  · decide

/-- Witness for C3 (amended): the digit-free input "kg" yields 1. -/
theorem extractUnitValue_fallback_nonzero_witness : extractUnitValue "kg" = 1 :=
  extractUnitValue_fallback_nonzero.1 "kg" (by decide)

/-- Counterexample to C3 as stated: on "0 kg" the parser returns 0 — it is
neither nonzero nor at least 1. -/
theorem extractUnitValue_claim_counterexample :
    extractUnitValue "0 kg" = 0 ∧ ¬ ((1 : ℚ) ≤ extractUnitValue "0 kg") := by
  exact ⟨by decide, by decide⟩

/-- **C8.** The unit-value parser returns the first `\d+(\.\d+)?` token of
its input as a number and 1.0 when there is none: the spec's four examples,
only the first of several numbers, and the digit-free fallback. -/
theorem extractUnitValue_contract :
    extractUnitValue "2 kg" = 2
    ∧ extractUnitValue "kg" = 1
    ∧ extractUnitValue "" = 1
    ∧ extractUnitValue "1.5 L" = 3/2
    ∧ extractUnitValue "2 kg x 3" = 2
    ∧ ∀ s : String, (∀ c ∈ s.data, c.isDigit = false) → extractUnitValue s = 1 := by
  refine ⟨by decide, by decide, by decide, ?_, by decide, ?_⟩
  · have h : extractUnitValue "1.5 L" = ((1 : ℕ) : ℚ) + ((5 : ℕ) : ℚ) / (10 : ℚ) ^ 1 := rfl
    rw [h]; norm_num
  · intro s h
    unfold extractUnitValue
    rw [scanNumber_eq_none_of_no_digit s.data h]
    rfl

/-- Witness for C8: the digit-free fallback clause applied to "pack". -/
theorem extractUnitValue_contract_witness : extractUnitValue "pack" = 1 :=
  extractUnitValue_contract.2.2.2.2.2 "pack" (by decide)

/-- **C6.** A bulk import of N parsed rows of which M are individually
invalid (missing/falsy required field, truthy struck price at least the
price, or an unresolvable id) reports successCount = N − M, errorCount = M,
an errors list of length min(M, 10), and counts that always sum to N. -/
theorem bulk_report_counts (db : Db) (rows : List Row) :
    ∃ rep : Report,
      (uploadExcel db (Except.ok rows)).response = Except.ok rep
      ∧ rep.successCount = rows.length - rows.countP (rowInvalid db)
      ∧ rep.errorCount = rows.countP (rowInvalid db)
      ∧ rep.errors.length = min (rows.countP (rowInvalid db)) 10
      ∧ rep.successCount + rep.errorCount = rows.length := by
  obtain ⟨h1, h2, h3⟩ := processRows_spec rows db 0 0 0 []
  have hcnt : rows.countP (fun r => !rowInvalid db r)
      = rows.countP (fun a => ¬ rowInvalid db a) :=
    List.countP_congr (by intro x hx; simp)
  have hlen := List.length_eq_countP_add_countP (rowInvalid db) rows
  rcases hrun : processRows db rows 0 0 0 [] with ⟨sc, ec, errs, db'⟩
  rw [hrun] at h1 h2 h3
  simp only at h1 h2 h3
  rw [hcnt] at h1
  refine ⟨{ message := "Excel upload processed", successCount := sc, errorCount := ec,
            errors := errs.take 10 }, ?_, ?_, ?_, ?_, ?_⟩
  · unfold uploadExcel
    simp only [hrun]
  · show sc = rows.length - rows.countP (rowInvalid db)
    omega
  · show ec = rows.countP (rowInvalid db)
    omega
  · show (errs.take 10).length = min (rows.countP (rowInvalid db)) 10
    rw [h3]
    simp [List.length_take, rowMsgs_length, Nat.min_comm]
  · show sc + ec = rows.length
    omega

/-- **C7.** Rows are processed strictly in sheet order: the loop's error
list is exactly one message per invalid row in row order, the message for
the row at 0-based index `idx` is attributed to physical row `idx + 2`
(header offset), an invalid row does not stop the loop, and parsed input
always yields a report, never a request-level failure. -/
theorem bulk_rows_in_order (db : Db) (rows : List Row) :
    (processRows db rows 0 0 0 []).2.2.1 = rowMsgs db 0 rows
    ∧ (∀ (idx : Nat) (r : Row), rowInvalid db r = true →
        (processRow db idx r).1
          = some ("Row " ++ toString (idx + 2) ++ ": " ++ rowMsgBody db r))
    ∧ ∃ rep : Report,
        (uploadExcel db (Except.ok rows)).response = Except.ok rep
        ∧ rep.errors = (rowMsgs db 0 rows).take 10 := by
  obtain ⟨h1, h2, h3⟩ := processRows_spec rows db 0 0 0 []
  refine ⟨by rw [h3]; simp, ?_, ?_⟩
  · intro idx r hinv
    rw [processRow_fst, if_pos hinv]
    rfl
  · rcases hrun : processRows db rows 0 0 0 [] with ⟨sc, ec, errs, db'⟩
    rw [hrun] at h3
    simp only at h3
    simp only [List.nil_append] at h3
    refine ⟨{ message := "Excel upload processed", successCount := sc, errorCount := ec,
              errors := errs.take 10 }, ?_, ?_⟩
    · unfold uploadExcel
      simp only [hrun]
    · show errs.take 10 = (rowMsgs db 0 rows).take 10
      rw [h3]

/-- **C4** (code bug in the source): `fs.unlinkSync(req.file.path)` sits
inside the `try` after the row loop, so a workbook that cannot be parsed
returns the 500-level error *without* deleting the uploaded file — cleanup
only happens when parsing succeeds, not under try/finally semantics as the
spec requires. -/
theorem upload_cleanup_not_guaranteed :
    (uploadExcel dbOne (Except.error "boom")).fileDeleted = false
    ∧ (uploadExcel dbOne (Except.error "boom")).response
        = Except.error ("Error processing Excel file: " ++ "boom")
    ∧ (uploadExcel dbOne (Except.ok [])).fileDeleted = true :=
  ⟨rfl, rfl, rfl⟩

/-- Counterexample to C9 as stated: updating only `buying_vat` (to 20) on a
SKU stored with buying_price 100 makes the `pre('findOneAndUpdate')` hook —
which sees only the update object, where `buying_price` is absent — set
`buying_price_without_vat` to 0 instead of 100 / 1.2. -/
theorem vat_invariant_counterexample :
    applySkuUpdate ⟨100, 0, 100⟩ ⟨none, some 20⟩ = ⟨100, 20, 0⟩
    ∧ ¬ vatInvariant (applySkuUpdate ⟨100, 0, 100⟩ ⟨none, some 20⟩) := by
  have hdoc : applySkuUpdate ⟨100, 0, 100⟩ ⟨none, some 20⟩ = ⟨100, 20, 0⟩ := rfl
  refine ⟨hdoc, ?_⟩
  intro h
  rw [hdoc] at h
  have h1 := h.1 (by norm_num)
  simp only at h1
  norm_num at h1

/-- **C9** (amended).  Every `save` recomputes `buying_price_without_vat`
and the saved document satisfies the VAT invariant; an update that carries
a nonzero `buying_price` together with a `buying_vat` also yields a stored
document satisfying the invariant; but an update that touches the buying
fields without a truthy `buying_price` resets the derived field to 0
regardless of the stored price. -/
theorem vat_derivation (d : SkuDoc) (u : SkuUpdate) :
    vatInvariant (preSave d)
    ∧ (∀ bp vat : ℚ, u.buying_price = some bp → bp ≠ 0 → u.buying_vat = some vat →
        vatInvariant (applySkuUpdate d u))
    ∧ (¬ jsTruthyNum u.buying_price = true →
        (u.buying_price.isSome ∨ u.buying_vat.isSome) →
        (applySkuUpdate d u).buying_price_without_vat = 0) := by
  refine ⟨?_, ?_, ?_⟩
  · unfold preSave vatInvariant
    by_cases h1 : d.buying_price ≠ 0 ∧ 0 < d.buying_vat
    · rw [if_pos h1]
      exact ⟨fun _ => rfl, fun hv0 => absurd (hv0 ▸ h1.2) (lt_irrefl 0)⟩
    · rw [if_neg h1]
      by_cases h2 : d.buying_price ≠ 0
      · rw [if_pos h2]
        refine ⟨fun hv => absurd ⟨h2, hv⟩ h1, fun _ => rfl⟩
      · rw [if_neg h2]
        push_neg at h2
        exact ⟨fun _ => by simp [h2], fun _ => by simp [h2]⟩
  · intro bp vat hbp hbp0 hvat
    have htr : jsTruthyNum (some bp) = true := by simpa [jsTruthyNum] using hbp0
    unfold applySkuUpdate updateBpwv vatInvariant
    rw [hbp, hvat]
    simp only [Option.getD_some]
    by_cases hv : (0 : ℚ) < vat
    · rw [if_pos ⟨htr, hv⟩]
      exact ⟨fun _ => by simp, fun hv0 => absurd (hv0 ▸ hv) (lt_irrefl 0)⟩
    · rw [if_neg (fun hand => hv hand.2), if_pos htr]
      exact ⟨fun hvpos => absurd hvpos hv, fun _ => by simp⟩
  · intro htr hsome
    unfold applySkuUpdate updateBpwv
    rw [if_neg (by simp [htr]), if_neg htr, if_pos hsome]
    simp

/-- Witness for C9 (amended): an update carrying buying_price 50 and
buying_vat 20 restores the invariant on the stored document. -/
theorem vat_derivation_witness :
    vatInvariant (applySkuUpdate ⟨100, 0, 100⟩ ⟨some 50, some 20⟩) :=
  (vat_derivation ⟨100, 0, 100⟩ ⟨some 50, some 20⟩).2.1 50 20 rfl (by norm_num) rfl

/-- Witness for C7: a row with every field missing, processed at 0-based
index 0, reports an error attributed to physical row 2. -/
theorem bulk_rows_in_order_witness :
    (processRow dbOne 0 ⟨none, none, none, none, none, none, none⟩).1
      = some ("Row " ++ toString (0 + 2) ++ ": "
          ++ rowMsgBody dbOne ⟨none, none, none, none, none, none, none⟩) :=
  (bulk_rows_in_order dbOne []).2.1 0 ⟨none, none, none, none, none, none, none⟩
    (by decide)
